import Mathlib

/-!
Verification of the preploot-sprintathon25 ingestion/caching pipeline.

The Python source (src/utils/cache_manager.py, src/utils/pdf_processor.py,
src/utils/quiz_generator.py, src/utils/notes_generator.py, src/app.py) is
shallowly embedded below.  The filesystem is modelled as an association
list from file name to content, wall-clock time as a rational number, and
JSON-serializable Python values as the inductive type `Json`.  Floating
point similarity scores are idealised as exact rationals; the external
TF-IDF/cosine computation (sklearn) and the LLM (Gemini) are passed in as
oracle parameters, since the spec treats them as black boxes.
-/

/-- JSON-serializable Python values, as stored by `json.dump` /
read back by `json.load` in cache_manager.py. -/
inductive Json where
  | null
  | bool (b : Bool)
  | num (q : ℚ)
  | str (s : String)
  | arr (xs : List Json)
  | obj (kvs : List (String × Json))

/-- Python truthiness (`if cached_transcript:` in app.py): `None`, `False`,
`0`, `""`, `[]`, `{}` are falsy; everything else is truthy. -/
def pyTruthy : Json → Bool
  | .null => false
  | .bool b => b
  | .num q => if q = 0 then false else true
  | .str s => if s = "" then false else true
  | .arr [] => false
  | .arr (_ :: _) => true
  | .obj [] => false
  | .obj (_ :: _) => true

/-- Truthiness of an optional value: `None` (a cache miss) is falsy. -/
def pyTruthyOpt : Option Json → Bool
  | none => false
  | some v => pyTruthy v

/-- Association-list lookup keyed by strings (first match wins). -/
def alookup {α : Type} : List (String × α) → String → Option α
  | [], _ => none
  | (k', v) :: rest, k => if k' = k then some v else alookup rest k

/-- Python-dict style assignment: replace the value of an existing key in
place, append a fresh key at the end (also the semantics of overwriting a
file named by the key). -/
def dictSet {α : Type} : List (String × α) → String → α → List (String × α)
  | [], k, v => [(k, v)]
  | (k', v') :: rest, k, v =>
    if k' = k then (k, v) :: rest else (k', v') :: dictSet rest k v

/-- One cache file `{cacheDir}/{cache_id}.json`, holding
`{'timestamp': ..., 'data': ...}` (cache_manager.py, save_to_cache). -/
structure CacheEntry where
  timestamp : ℚ
  data : Json

/-- The cache directory: one entry per cache_id. -/
abbrev CacheState := List (String × CacheEntry)

/-- cache_manager.py, `save_to_cache(data, cache_id)`: writes
`{'timestamp': time.time(), 'data': data}` to `{cache_id}.json`,
overwriting any existing file.  `now` stands for `time.time()`. -/
def save_to_cache (st : CacheState) (data : Json) (cache_id : String)
    (now : ℚ) : CacheState :=
  dictSet st cache_id ⟨now, data⟩

/-- cache_manager.py, `get_from_cache(cache_id)`: returns `None` if the
file is absent; otherwise loads it, and if
`time.time() - timestamp > CACHE_TIMEOUT` removes the file and returns
`None`, else returns the stored data.  Result: (returned value, cache
directory after the call). -/
def get_from_cache (st : CacheState) (cache_id : String) (now ttl : ℚ) :
    Option Json × CacheState :=
  match alookup st cache_id with
  | none => (none, st)
  | some e =>
    if ttl < now - e.timestamp then
      (none, st.filter (fun p => p.1 ≠ cache_id))
    else
      (some e.data, st)

/-- app.py, `process_youtube` lines 78-91: after computing
`cache_id = f'yt_{user_id}_{video_id}'` the handler serves from cache iff
the value returned by `get_from_cache` is truthy. -/
def process_youtube_cache_hit (st : CacheState) (user_id video_id : String)
    (now ttl : ℚ) : Bool :=
  pyTruthyOpt (get_from_cache st ("yt_" ++ user_id ++ "_" ++ video_id) now ttl).1

/-- app.py, `generate_quiz` lines 124-134: the handler serves the cached
quiz iff the value returned by `get_from_cache` on the derived quiz cache
key is truthy. -/
def generate_quiz_cache_hit (st : CacheState) (quiz_cache_id : String)
    (now ttl : ℚ) : Bool :=
  pyTruthyOpt (get_from_cache st quiz_cache_id now ttl).1

theorem alookup_dictSet_self {α : Type} (d : List (String × α)) (k : String)
    (v : α) : alookup (dictSet d k v) k = some v := by
  induction d with
  | nil => simp [dictSet, alookup]
  | cons p rest ih =>
    by_cases h : p.1 = k
    · simp [dictSet, h, alookup]
    · simpa [dictSet, h, alookup] using ih

theorem alookup_dictSet_ne {α : Type} (d : List (String × α)) (k k' : String)
    (v : α) (h : k' ≠ k) : alookup (dictSet d k v) k' = alookup d k' := by
  have hk : k ≠ k' := fun h' => h h'.symm
  induction d with
  | nil => simp [dictSet, alookup, hk]
  | cons p rest ih =>
    obtain ⟨k0, v0⟩ := p
    by_cases hp : k0 = k
    · subst hp
      simp [dictSet, alookup, hk]
    · simp [dictSet, hp, alookup, ih]

theorem alookup_filter_ne_self {α : Type} (d : List (String × α))
    (k : String) : alookup (d.filter (fun p => p.1 ≠ k)) k = none := by
  induction d with
  | nil => simp [alookup]
  | cons p rest ih =>
    by_cases hp : p.1 = k
    · simpa [List.filter, hp] using ih
    · simpa [List.filter, hp, alookup] using ih

/-- Claim C2: for every key `k` and JSON-serializable value `v`,
`save_to_cache(v, k)` followed within the TTL by `get_from_cache(k)`
returns `v` unchanged, and a second `save_to_cache` on the same key
overwrites the prior entry (without error: the write is total). -/
theorem cache_round_trip (st : CacheState) (v v' : Json) (k : String)
    (t t' t2 ttl : ℚ) (h : t' - t ≤ ttl) :
    (get_from_cache (save_to_cache st v k t) k t' ttl).1 = some v ∧
    alookup (save_to_cache (save_to_cache st v k t) v' k t2) k =
      some ⟨t2, v'⟩ := by
  constructor
  · unfold get_from_cache save_to_cache
    rw [alookup_dictSet_self]
    simp [not_lt.mpr h]
  · unfold save_to_cache
    exact alookup_dictSet_self _ _ _

/-- Witness for C2 at a concrete input. -/
theorem cache_round_trip_witness :
    (get_from_cache (save_to_cache [] (Json.str "hello") "k" 0) "k" 1 3600).1 =
      some (Json.str "hello") ∧
    alookup (save_to_cache (save_to_cache [] (Json.str "hello") "k" 0)
        (Json.str "bye") "k" 2) "k" = some ⟨2, Json.str "bye"⟩ :=
  cache_round_trip [] (Json.str "hello") (Json.str "bye") "k" 0 1 2 3600
    (by norm_num)

/-- Claim C3: `get_from_cache(k)` returns a miss both when no entry exists
for `k` and when the stored entry's age exceeds the TTL; an entry written
at `t0` and read at `t0 + TTL + ε` (with `ε > 0`) returns a miss and its
backing file is deleted by that read. -/
theorem cache_expiry (st : CacheState) (v : Json) (k : String)
    (t0 now ttl ε : ℚ) (hε : 0 < ε) (habs : alookup st k = none) :
    (get_from_cache st k now ttl).1 = none ∧
    (get_from_cache (save_to_cache st v k t0) k (t0 + ttl + ε) ttl).1 =
      none ∧
    alookup (get_from_cache (save_to_cache st v k t0) k (t0 + ttl + ε)
      ttl).2 k = none := by
  refine ⟨?_, ?_, ?_⟩
  · unfold get_from_cache
    rw [habs]
  · unfold get_from_cache save_to_cache
    rw [alookup_dictSet_self]
    have hex : ttl < t0 + ttl + ε - t0 := by linarith
    simp [hex]
  · unfold get_from_cache save_to_cache
    rw [alookup_dictSet_self]
    have hex : ttl < t0 + ttl + ε - t0 := by linarith
    simp only [hex, if_pos]
    exact alookup_filter_ne_self _ _

/-- Witness for C3 at a concrete input. -/
theorem cache_expiry_witness :
    (get_from_cache [] "k" 0 3600).1 = none ∧
    (get_from_cache (save_to_cache [] (Json.str "x") "k" 0) "k"
      (0 + 3600 + 1) 3600).1 = none ∧
    alookup (get_from_cache (save_to_cache [] (Json.str "x") "k" 0) "k"
      (0 + 3600 + 1) 3600).2 "k" = none :=
  cache_expiry [] (Json.str "x") "k" 0 0 3600 1 (by norm_num) rfl

/-- Claim C10: the HTTP handlers decide cache hits by Python truthiness of
the cached payload, not by entry presence: a fresh, unexpired cache entry
whose payload is an empty transcript string (YouTube handler) or an empty
quiz list (quiz handler) is treated as a miss even though
`get_from_cache` returns an existing value. -/
theorem handlers_truthiness (st : CacheState) (uid vid qid : String)
    (t0 now ttl : ℚ) (h : now - t0 ≤ ttl) :
    process_youtube_cache_hit
        (save_to_cache st (Json.str "") ("yt_" ++ uid ++ "_" ++ vid) t0)
        uid vid now ttl = false ∧
    ((get_from_cache
        (save_to_cache st (Json.str "") ("yt_" ++ uid ++ "_" ++ vid) t0)
        ("yt_" ++ uid ++ "_" ++ vid) now ttl).1).isSome = true ∧
    generate_quiz_cache_hit (save_to_cache st (Json.arr []) qid t0) qid
        now ttl = false ∧
    ((get_from_cache (save_to_cache st (Json.arr []) qid t0) qid now
        ttl).1).isSome = true := by
  have hget : ∀ (w : Json) (key : String),
      (get_from_cache (save_to_cache st w key t0) key now ttl).1 = some w := by
    intro w key
    unfold get_from_cache save_to_cache
    rw [alookup_dictSet_self]
    simp [not_lt.mpr h]
  refine ⟨?_, ?_, ?_, ?_⟩
  · unfold process_youtube_cache_hit
    rw [hget]
    rfl
  · rw [hget]
    rfl
  · unfold generate_quiz_cache_hit
    rw [hget]
    rfl
  · rw [hget]
    rfl

/-- Witness for C10 at a concrete input. -/
theorem handlers_truthiness_witness :
    process_youtube_cache_hit
        (save_to_cache [] (Json.str "") ("yt_" ++ "u" ++ "_" ++ "v") 0)
        "u" "v" 1 3600 = false ∧
    ((get_from_cache
        (save_to_cache [] (Json.str "") ("yt_" ++ "u" ++ "_" ++ "v") 0)
        ("yt_" ++ "u" ++ "_" ++ "v") 1 3600).1).isSome = true ∧
    generate_quiz_cache_hit (save_to_cache [] (Json.arr []) "q" 0) "q"
        1 3600 = false ∧
    ((get_from_cache (save_to_cache [] (Json.arr []) "q" 0) "q" 1
        3600).1).isSome = true :=
  handlers_truthiness [] "u" "v" "q" 0 1 3600 (by norm_num)

/-- Result of pdf_processor.py `check_new_files`: the returned
`(new_files, removed_files)` pair together with the ledger that was
persisted by `save_user_processed_files`. -/
structure DiffResult where
  new_files : List String
  removed_files : List String
  ledger : List (String × ℚ)

/-- Body of the per-file loop in `check_new_files` (lines 72-77): a file
is new/updated iff it is absent from the ledger or its recorded
modification time is strictly smaller than the current one; in that case
it is appended to `new_files` and the ledger entry is set to the current
modification time. -/
def diffStep (mtime : String → ℚ) (acc : List String × List (String × ℚ))
    (file : String) : List String × List (String × ℚ) :=
  match alookup acc.2 file with
  | none => (acc.1 ++ [file], dictSet acc.2 file (mtime file))
  | some v =>
    if v < mtime file then (acc.1 ++ [file], dictSet acc.2 file (mtime file))
    else acc

/-- pdf_processor.py, `check_new_files` (lines 56-82).  `all_files` is the
glob listing of `*.pdf` and `*.docx` in the user's data folder, `mtime`
is `os.path.getmtime`, `processed0` the ledger loaded by
`get_user_processed_files`.  First every ledger key no longer on disk is
reported removed and popped; then each current file is classified by
`diffStep`; the resulting ledger is saved unconditionally. -/
def check_new_files (all_files : List String) (mtime : String → ℚ)
    (processed0 : List (String × ℚ)) : DiffResult :=
  let removed := (processed0.map Prod.fst).filter
    (fun f => decide (¬ f ∈ all_files))
  let processed1 := processed0.filter (fun p => decide (p.1 ∈ all_files))
  let r := all_files.foldl (diffStep mtime) ([], processed1)
  ⟨r.1, removed, r.2⟩

theorem alookup_filter_key {α : Type} (d : List (String × α))
    (pred : String → Bool) (k : String) (hk : pred k = true) :
    alookup (d.filter (fun p => pred p.1)) k = alookup d k := by
  induction d with
  | nil => simp [alookup]
  | cons p rest ih =>
    obtain ⟨k0, v0⟩ := p
    by_cases h0 : k0 = k
    · subst h0
      simp [List.filter, hk, alookup]
    · by_cases hp : pred k0
      · simpa [List.filter, hp, alookup, h0] using ih
      · simpa [List.filter, hp, alookup, h0] using ih

theorem alookup_isSome_mem_keys {α : Type} (d : List (String × α))
    (k : String) (h : (alookup d k).isSome = true) :
    k ∈ d.map Prod.fst := by
  induction d with
  | nil => simp [alookup] at h
  | cons p rest ih =>
    obtain ⟨k0, v0⟩ := p
    rw [List.map_cons]
    by_cases h0 : k0 = k
    · exact List.mem_cons.mpr (Or.inl h0.symm)
    · simp only [alookup, if_neg h0] at h
      exact List.mem_cons.mpr (Or.inr (ih h))

theorem mem_keys_alookup_isSome {α : Type} (d : List (String × α))
    (k : String) (h : k ∈ d.map Prod.fst) :
    (alookup d k).isSome = true := by
  induction d with
  | nil => simp at h
  | cons p rest ih =>
    obtain ⟨k0, v0⟩ := p
    by_cases h0 : k0 = k
    · simp [alookup, h0]
    · rw [List.map_cons] at h
      rcases List.mem_cons.mp h with h1 | h1
      · exact absurd h1.symm h0
      · simpa [alookup, h0] using ih h1

/-- `diffStep` on file `g` does not change the ledger entry of any other
key `k`. -/
theorem alookup_diffStep_ne (mtime : String → ℚ)
    (acc : List String × List (String × ℚ)) (g k : String) (hkg : k ≠ g) :
    alookup (diffStep mtime acc g).2 k = alookup acc.2 k := by
  unfold diffStep
  cases halo : alookup acc.2 g with
  | none => simp [alookup_dictSet_ne _ _ _ _ hkg]
  | some w =>
    by_cases hw : w < mtime g
    · simp [hw, alookup_dictSet_ne _ _ _ _ hkg]
    · simp [hw]

/-- Folding `diffStep` over files that do not mention `k` leaves the
ledger entry of `k` (and in fact its lookup) unchanged. -/
theorem foldl_diffStep_lookup_not_mem (mtime : String → ℚ)
    (fs : List String) (k : String) (hk : ¬ k ∈ fs)
    (acc : List String × List (String × ℚ)) :
    alookup (fs.foldl (diffStep mtime) acc).2 k = alookup acc.2 k := by
  induction fs generalizing acc with
  | nil => rfl
  | cons g rest ih =>
    have hg : k ≠ g := fun h => hk (h ▸ List.mem_cons_self g rest)
    have hk' : ¬ k ∈ rest := fun h => hk (List.mem_cons_of_mem g h)
    rw [List.foldl_cons, ih hk']
    unfold diffStep
    cases halo : alookup acc.2 g with
    | none => simp [alookup_dictSet_ne _ _ _ _ hg]
    | some v =>
      by_cases hv : v < mtime g
      · simp [hv, alookup_dictSet_ne _ _ _ _ hg]
      · simp [hv]

/-- After folding `diffStep` over `fs`, every file of `fs` has a ledger
entry whose recorded time is at least its current modification time, and
its value is either the current modification time or the value it already
had in the starting ledger. -/
theorem foldl_diffStep_covers (mtime : String → ℚ) (fs : List String)
    (hnd : fs.Nodup) (acc : List String × List (String × ℚ)) (k : String)
    (hk : k ∈ fs) :
    ∃ v, alookup (fs.foldl (diffStep mtime) acc).2 k = some v ∧
      mtime k ≤ v ∧ (v = mtime k ∨ alookup acc.2 k = some v) := by
  induction fs generalizing acc with
  | nil => simp at hk
  | cons g rest ih =>
    have hnd' : rest.Nodup := (List.nodup_cons.mp hnd).2
    rw [List.foldl_cons]
    by_cases hkg : k = g
    · subst hkg
      have hknr : ¬ k ∈ rest := (List.nodup_cons.mp hnd).1
      rw [foldl_diffStep_lookup_not_mem mtime rest k hknr]
      unfold diffStep
      cases halo : alookup acc.2 k with
      | none =>
        exact ⟨mtime k, by simp [alookup_dictSet_self], le_refl _, Or.inl rfl⟩
      | some v =>
        by_cases hv : v < mtime k
        · exact ⟨mtime k, by simp [hv, alookup_dictSet_self], le_refl _,
            Or.inl rfl⟩
        · exact ⟨v, by simp [hv, halo], not_lt.mp hv, Or.inr rfl⟩
    · have hkr : k ∈ rest := by
        rcases List.mem_cons.mp hk with h | h
        · exact absurd h hkg
        · exact h
      obtain ⟨v, hl, hle, hor⟩ := ih hnd' _ hkr
      refine ⟨v, hl, hle, ?_⟩
      rcases hor with h | h
      · exact Or.inl h
      · rw [alookup_diffStep_ne mtime acc g k hkg] at h
        exact Or.inr h

/-- Folding `diffStep` only ever adds keys drawn from the folded list:
any key with an entry afterwards either had one before or belongs to the
list. -/
theorem foldl_diffStep_keys_subset (mtime : String → ℚ) (fs : List String)
    (acc : List String × List (String × ℚ)) (k : String)
    (h : (alookup (fs.foldl (diffStep mtime) acc).2 k).isSome = true) :
    (alookup acc.2 k).isSome = true ∨ k ∈ fs := by
  induction fs generalizing acc with
  | nil => exact Or.inl h
  | cons g rest ih =>
    rw [List.foldl_cons] at h
    rcases ih _ h with h' | h'
    · by_cases hkg : k = g
      · exact Or.inr (hkg ▸ List.mem_cons_self g rest)
      · rw [alookup_diffStep_ne mtime acc g k hkg] at h'
        exact Or.inl h'
    · exact Or.inr (List.mem_cons_of_mem g h')

/-- If every file already has an up-to-date ledger entry, folding
`diffStep` is the identity: nothing is reported new and the ledger is
untouched. -/
theorem foldl_diffStep_no_change (mtime : String → ℚ) (fs : List String)
    (new0 : List String) (d : List (String × ℚ))
    (h : ∀ f ∈ fs, ∃ v, alookup d f = some v ∧ ¬ v < mtime f) :
    fs.foldl (diffStep mtime) (new0, d) = (new0, d) := by
  induction fs with
  | nil => rfl
  | cons g rest ih =>
    obtain ⟨v, hv, hlt⟩ := h g (List.mem_cons_self g rest)
    rw [List.foldl_cons]
    have hstep : diffStep mtime (new0, d) g = (new0, d) := by
      unfold diffStep
      simp [hv, hlt]
    rw [hstep]
    exact ih (fun f hf => h f (List.mem_cons_of_mem g hf))

/-- Keys of the filtered ledger used as the fold's starting point all lie
in `all_files`. -/
theorem alookup_filtered_mem (files : List String)
    (L0 : List (String × ℚ)) (k : String)
    (h : (alookup (L0.filter (fun p => decide (p.1 ∈ files))) k).isSome =
      true) : k ∈ files := by
  have hk := alookup_isSome_mem_keys _ _ h
  rcases List.mem_map.mp hk with ⟨p, hp, hpk⟩
  have := (List.mem_filter.mp hp).2
  rw [hpk] at this
  exact of_decide_eq_true this

/-- Any key with an entry in the ledger persisted by `check_new_files` is
a file currently on disk. -/
theorem check_ledger_keys_sub (files : List String) (mtime : String → ℚ)
    (L0 : List (String × ℚ)) (k : String)
    (h : (alookup (check_new_files files mtime L0).ledger k).isSome =
      true) : k ∈ files := by
  simp only [check_new_files] at h
  rcases foldl_diffStep_keys_subset mtime files _ k h with h' | h'
  · exact alookup_filtered_mem files L0 k h'
  · exact h'

/-- Every file on disk has an entry in the ledger persisted by
`check_new_files`: the current modification time if the file was reported
new/updated, otherwise the previously recorded (not smaller) time. -/
theorem check_ledger_covers (files : List String) (mtime : String → ℚ)
    (L0 : List (String × ℚ)) (hnd : files.Nodup) (f : String)
    (hf : f ∈ files) :
    ∃ v, alookup (check_new_files files mtime L0).ledger f = some v ∧
      mtime f ≤ v ∧ (v = mtime f ∨ alookup L0 f = some v) := by
  simp only [check_new_files]
  obtain ⟨v, hl, hle, hor⟩ := foldl_diffStep_covers mtime files hnd
    ([], L0.filter (fun p => decide (p.1 ∈ files))) f hf
  refine ⟨v, hl, hle, ?_⟩
  rcases hor with h | h
  · exact Or.inl h
  · rw [alookup_filter_key L0 (fun s => decide (s ∈ files)) f
      (decide_eq_true hf)] at h
    exact Or.inr h

/-- Claim C9: after every call to `check_new_files`, the persisted
ledger's key set equals exactly the set of supported file paths currently
on disk; every removed path is dropped, and every current path is present
with its recorded last-modified time (the current modification time for
new/updated files, the previously recorded time — never older than the
current one — for unchanged files). -/
theorem check_ledger_matches_disk (files : List String)
    (mtime : String → ℚ) (L0 : List (String × ℚ)) (hnd : files.Nodup) :
    ((check_new_files files mtime L0).ledger.map Prod.fst).toFinset =
      files.toFinset ∧
    files.all (fun f =>
      match alookup (check_new_files files mtime L0).ledger f with
      | none => false
      | some v => decide (mtime f ≤ v ∧
          (v = mtime f ∨ alookup L0 f = some v))) = true ∧
    (check_new_files files mtime L0).removed_files.all
      (fun f => (alookup (check_new_files files mtime L0).ledger f).isNone)
      = true := by
  refine ⟨?_, ?_, ?_⟩
  · ext k
    simp only [List.mem_toFinset]
    constructor
    · intro hk
      exact check_ledger_keys_sub files mtime L0 k
        (mem_keys_alookup_isSome _ _ hk)
    · intro hk
      obtain ⟨v, hl, _, _⟩ := check_ledger_covers files mtime L0 hnd k hk
      exact alookup_isSome_mem_keys _ _ (by simp [hl])
  · rw [List.all_eq_true]
    intro f hf
    obtain ⟨v, hl, hle, hor⟩ := check_ledger_covers files mtime L0 hnd f hf
    rw [hl]
    exact decide_eq_true ⟨hle, hor⟩
  · rw [List.all_eq_true]
    intro f hf
    have hnot : ¬ f ∈ files := by
      simp only [check_new_files] at hf
      exact of_decide_eq_true (List.mem_filter.mp hf).2
    cases hlo : alookup (check_new_files files mtime L0).ledger f with
    | none => rfl
    | some v =>
      exact absurd (check_ledger_keys_sub files mtime L0 f (by simp [hlo]))
        hnot

/-- Witness for C9 at a concrete input: one unchanged file, one updated
file, one vanished ledger entry. -/
theorem check_ledger_matches_disk_witness :
    ((check_new_files ["a.pdf", "b.docx"]
        (fun f => if f = "a.pdf" then 1 else 5)
        [("a.pdf", 1), ("gone.pdf", 7), ("b.docx", 2)]).ledger.map
        Prod.fst).toFinset = (["a.pdf", "b.docx"] : List String).toFinset ∧
    (["a.pdf", "b.docx"] : List String).all (fun f =>
      match alookup (check_new_files ["a.pdf", "b.docx"]
          (fun f => if f = "a.pdf" then 1 else 5)
          [("a.pdf", 1), ("gone.pdf", 7), ("b.docx", 2)]).ledger f with
      | none => false
      | some v => decide ((if f = "a.pdf" then (1 : ℚ) else 5) ≤ v ∧
          (v = (if f = "a.pdf" then (1 : ℚ) else 5) ∨
            alookup [("a.pdf", (1 : ℚ)), ("gone.pdf", 7), ("b.docx", 2)] f =
              some v))) = true ∧
    (check_new_files ["a.pdf", "b.docx"]
        (fun f => if f = "a.pdf" then 1 else 5)
        [("a.pdf", 1), ("gone.pdf", 7), ("b.docx", 2)]).removed_files.all
      (fun f => (alookup (check_new_files ["a.pdf", "b.docx"]
          (fun f => if f = "a.pdf" then 1 else 5)
          [("a.pdf", 1), ("gone.pdf", 7), ("b.docx", 2)]).ledger f).isNone)
      = true :=
  check_ledger_matches_disk ["a.pdf", "b.docx"]
    (fun f => if f = "a.pdf" then 1 else 5)
    [("a.pdf", 1), ("gone.pdf", 7), ("b.docx", 2)] (by decide)

/-- Counterexample to claim C4 as stated: with no filesystem changes at
any point, the first of two `check_new_files` calls on a fresh ledger
reports the (pre-existing) file as new, so the two calls do not both
return empty sets; only the second call is guaranteed empty. -/
theorem check_twice_counterexample :
    (check_new_files ["a.pdf"] (fun _ => 1) []).new_files = ["a.pdf"] ∧
    (check_new_files ["a.pdf"] (fun _ => 1) []).new_files ≠ [] ∧
    (check_new_files ["a.pdf"] (fun _ => 1)
      (check_new_files ["a.pdf"] (fun _ => 1) []).ledger).new_files = [] ∧
    (check_new_files ["a.pdf"] (fun _ => 1)
      (check_new_files ["a.pdf"] (fun _ => 1) []).ledger).removed_files =
      [] := by
  refine ⟨?_, ?_, ?_, ?_⟩ <;> decide

/-- Claim C4 (amended): calling `check_new_files` twice with no
filesystem changes between the calls, the second call returns empty
new-file and removed-file sets (the first call may still report
differences accumulated before it). -/
theorem check_second_call_empty (files : List String) (mtime : String → ℚ)
    (L0 : List (String × ℚ)) (hnd : files.Nodup) :
    (check_new_files files mtime
      (check_new_files files mtime L0).ledger).new_files = [] ∧
    (check_new_files files mtime
      (check_new_files files mtime L0).ledger).removed_files = [] := by
  constructor
  · have hcov : ∀ f ∈ files,
        ∃ v, alookup ((check_new_files files mtime L0).ledger.filter
          (fun p => decide (p.1 ∈ files))) f = some v ∧ ¬ v < mtime f := by
      intro f hf
      obtain ⟨v, hl, hle, _⟩ := check_ledger_covers files mtime L0 hnd f hf
      exact ⟨v, by
        rw [alookup_filter_key _ (fun s => decide (s ∈ files)) f
          (decide_eq_true hf)]
        exact hl, not_lt.mpr hle⟩
    show (files.foldl (diffStep mtime) ([], _)).1 = []
    rw [foldl_diffStep_no_change mtime files [] _ hcov]
  · show ((check_new_files files mtime L0).ledger.map Prod.fst).filter
      (fun f => decide (¬ f ∈ files)) = []
    rw [List.filter_eq_nil_iff]
    intro k hk
    have : k ∈ files :=
      check_ledger_keys_sub files mtime L0 k (mem_keys_alookup_isSome _ _ hk)
    simp [this]

/-- Witness for the amended C4 at a concrete input. -/
theorem check_second_call_empty_witness :
    (check_new_files ["a.pdf", "b.docx"] (fun _ => 2)
      (check_new_files ["a.pdf", "b.docx"] (fun _ => 2)
        [("gone.pdf", 1)]).ledger).new_files = [] ∧
    (check_new_files ["a.pdf", "b.docx"] (fun _ => 2)
      (check_new_files ["a.pdf", "b.docx"] (fun _ => 2)
        [("gone.pdf", 1)]).ledger).removed_files = [] :=
  check_second_call_empty ["a.pdf", "b.docx"] (fun _ => 2) [("gone.pdf", 1)]
    (by decide)

/-- quiz_generator.py / notes_generator.py, `deduplicate_chunks`
keep-loop (lines 21-31): iterate over the chunk indices in order; an
index already marked seen is skipped, otherwise it is kept and every
strictly later index whose similarity to it is strictly greater than the
threshold is marked seen.  `sim i j` stands for `similarities[i][j]`,
the cosine-similarity matrix sklearn computes from the TF-IDF vectors of
the chunks (idealised as exact rationals). -/
def dedupIndices (sim : Nat → Nat → ℚ) (threshold : ℚ) (n : Nat) :
    List Nat :=
  ((List.range n).foldl (fun acc i =>
    if i ∈ acc.2 then acc
    else (acc.1 ++ [i],
      acc.2 ++ (List.range n).filter
        (fun j => decide (i < j) && decide (threshold < sim i j))))
    ([], [])).1

/-- quiz_generator.py / notes_generator.py, `deduplicate_chunks` (lines
12-32): inputs of length 0 or 1 are returned unchanged, otherwise the
chunks at the kept indices are returned in order. -/
def deduplicate_chunks (chunks : List String) (sim : Nat → Nat → ℚ)
    (threshold : ℚ) : List String :=
  if chunks.length ≤ 1 then chunks
  else (dedupIndices sim threshold chunks.length).filterMap
    (fun i => chunks.get? i)

/-- On a two-chunk input the deduplicator keeps the second chunk iff its
similarity to the first does not strictly exceed the threshold. -/
theorem dedup_pair (c₁ c₂ : String) (sim : Nat → Nat → ℚ) (t : ℚ) :
    deduplicate_chunks [c₁, c₂] sim t =
      if t < sim 0 1 then [c₁] else [c₁, c₂] := by
  have hrange : List.range 2 = [0, 1] := rfl
  by_cases h : t < sim 0 1
  · rw [if_pos h]
    simp [deduplicate_chunks, dedupIndices, hrange, List.filter,
      decide_eq_true h]
  · rw [if_neg h]
    simp [deduplicate_chunks, dedupIndices, hrange, List.filter,
      decide_eq_false h]

/-- Counterexample to claim C1 as stated: at threshold 1.0 two identical
chunks (cosine similarity exactly 1) do NOT collapse to a single kept
entry, because the code's comparison `similarities[i][j] > threshold` is
strict and `1 > 1` is false — both chunks are kept. -/
theorem dedup_identical_threshold_one :
    (deduplicate_chunks ["hello world", "hello world"] (fun _ _ => 1)
      1).length = 2 := by decide

/-- Claim C1 (amended): with the strict `>` comparison used by the code,
two identical chunks (pairwise cosine similarity exactly 1) are both kept
at threshold 1.0, and collapse to a single kept entry for every threshold
strictly below 1; two lexically unrelated chunks sharing no terms
(pairwise cosine similarity 0) are both kept for every threshold in
[0, 1]. -/
theorem dedup_pair_spec (c₁ c₂ d₁ d₂ : String)
    (simId simDisj : Nat → Nat → ℚ)
    (t u : ℚ) (ht : t < 1) (hu0 : 0 ≤ u) (hu1 : u ≤ 1)
    (hId : simId 0 1 = 1) (hDisj : simDisj 0 1 = 0) :
    deduplicate_chunks [c₁, c₂] simId 1 = [c₁, c₂] ∧
    deduplicate_chunks [c₁, c₂] simId t = [c₁] ∧
    deduplicate_chunks [d₁, d₂] simDisj u = [d₁, d₂] := by
  rw [dedup_pair, dedup_pair, dedup_pair, hId, hDisj]
  refine ⟨?_, ?_, ?_⟩
  · rw [if_neg (lt_irrefl 1)]
  · rw [if_pos ht]
  · rw [if_neg (not_lt.mpr hu0)]

/-- Witness for the amended C1 at a concrete input. -/
theorem dedup_pair_spec_witness :
    deduplicate_chunks ["hello world", "hello world"] (fun _ _ => 1) 1 =
      ["hello world", "hello world"] ∧
    deduplicate_chunks ["hello world", "hello world"] (fun _ _ => 1)
      (17/20) = ["hello world"] ∧
    deduplicate_chunks ["alpha beta", "gamma delta"] (fun _ _ => 0)
      (17/20) = ["alpha beta", "gamma delta"] :=
  dedup_pair_spec "hello world" "hello world" "alpha beta" "gamma delta"
    (fun _ _ => 1) (fun _ _ => 0)
    (17/20) (17/20) (by norm_num) (by norm_num) (by norm_num) rfl rfl

/-- The separator `"\n\n--- SECTION ---\n\n"` used by `batch_chunks` in
quiz_generator.py and notes_generator.py (line 39). -/
def sectionSep : String := "\n\n--- SECTION ---\n\n"

/-- The slice sequence `chunks[i:i+batch_size]` for
`i in range(0, len(chunks), batch_size)` (quiz_generator.py /
notes_generator.py, `batch_chunks`, lines 36-40), written with an
explicit fuel argument (one unit per produced group) so that the
recursion is structural; `fuel ≥ chunks.length` suffices since each
group consumes at least one element when `batch_size ≥ 1`. -/
def chunkGroups {α : Type} : Nat → List α → Nat → List (List α)
  | _, [], _ => []
  | 0, _ :: _, _ => []
  | fuel + 1, a :: as, bs =>
    ((a :: as).take bs) :: chunkGroups fuel ((a :: as).drop bs) bs

/-- quiz_generator.py / notes_generator.py, `batch_chunks` (lines 34-41):
consecutive groups of `batch_size` chunks, each group joined with
`sectionSep`. -/
def batch_chunks (chunks : List String) (batch_size : Nat) : List String :=
  (chunkGroups chunks.length chunks batch_size).map
    (String.intercalate sectionSep)

theorem chunkGroups_join {α : Type} (b : Nat) :
    ∀ (fuel : Nat) (l : List α), l.length ≤ fuel →
      (chunkGroups fuel l (b + 1)).join = l := by
  intro fuel
  induction fuel with
  | zero =>
    intro l hl
    have : l = [] := List.eq_nil_of_length_eq_zero (Nat.le_zero.mp hl)
    subst this
    rfl
  | succ n ih =>
    intro l hl
    cases l with
    | nil => rfl
    | cons a as =>
      have hd : ((a :: as).drop (b + 1)).length ≤ n := by
        simp only [List.length_drop, List.length_cons] at *
        omega
      simp only [chunkGroups, List.join_cons, ih _ hd]
      exact List.take_append_drop _ _

theorem chunkGroups_bounded {α : Type} (b : Nat) :
    ∀ (fuel : Nat) (l : List α) (g : List α),
      g ∈ chunkGroups fuel l (b + 1) → g ≠ [] ∧ g.length ≤ b + 1 := by
  intro fuel
  induction fuel with
  | zero =>
    intro l g hg
    cases l with
    | nil => simp [chunkGroups] at hg
    | cons a as => simp [chunkGroups] at hg
  | succ n ih =>
    intro l g hg
    cases l with
    | nil => simp [chunkGroups] at hg
    | cons a as =>
      simp only [chunkGroups] at hg
      rcases List.mem_cons.mp hg with h | h
      · subst h
        refine ⟨by simp, ?_⟩
        simpa using List.length_take_le (b + 1) (a :: as)
      · exact ih _ g h

theorem chunkGroups_ne_nil {α : Type} (b fuel : Nat) (a : α) (as : List α)
    (hl : 0 < fuel) : chunkGroups fuel (a :: as) (b + 1) ≠ [] := by
  cases fuel with
  | zero => omega
  | succ n => simp [chunkGroups]

theorem chunkGroups_dropLast_full {α : Type} (b : Nat) :
    ∀ (fuel : Nat) (l : List α), l.length ≤ fuel →
      ∀ g ∈ (chunkGroups fuel l (b + 1)).dropLast, g.length = b + 1 := by
  intro fuel
  induction fuel with
  | zero =>
    intro l hl g hg
    have : l = [] := List.eq_nil_of_length_eq_zero (Nat.le_zero.mp hl)
    subst this
    simp [chunkGroups] at hg
  | succ n ih =>
    intro l hl g hg
    cases l with
    | nil => simp [chunkGroups] at hg
    | cons a as =>
      simp only [chunkGroups] at hg
      cases hrest : chunkGroups n ((a :: as).drop (b + 1)) (b + 1) with
      | nil => rw [hrest, List.dropLast_single] at hg; simp at hg
      | cons g0 gs =>
        rw [hrest, List.dropLast_cons_of_ne_nil (by simp)] at hg
        rcases List.mem_cons.mp hg with h | h
        · subst h
          cases hdrop : (a :: as).drop (b + 1) with
          | nil => rw [hdrop, chunkGroups] at hrest; cases hrest
          | cons d ds =>
            have hlen : b + 1 ≤ (a :: as).length := by
              by_contra hcon
              have : (a :: as).drop (b + 1) = [] :=
                List.drop_eq_nil_of_le (by omega)
              rw [this] at hdrop
              cases hdrop
            simpa using List.length_take_of_le hlen
        · rw [← hrest] at h
          have hd : ((a :: as).drop (b + 1)).length ≤ n := by
            simp only [List.length_drop, List.length_cons] at *
            omega
          exact ih _ hd g h

/-- Claim C7: `batch_chunks` groups its input into consecutive groups of
at most `batch_size` chunks in original order (concatenating the groups
restores the input), joins each group with the literal separator
`"\n\n--- SECTION ---\n\n"`, only the last group may be smaller than
`batch_size` (every non-last group has exactly `batch_size` chunks),
zero input chunks yield zero batches, and batching
`["a","b","c","d","e"]` with size 2 yields exactly the three expected
strings.  `batch_size = b + 1` ranges over all positive batch sizes:
Python's `range` rejects a zero step. -/
theorem batch_chunks_spec (chunks : List String) (b : Nat) :
    batch_chunks chunks (b + 1) =
      (chunkGroups chunks.length chunks (b + 1)).map
        (String.intercalate sectionSep) ∧
    (chunkGroups chunks.length chunks (b + 1)).join = chunks ∧
    (∀ g ∈ chunkGroups chunks.length chunks (b + 1),
      g ≠ [] ∧ g.length ≤ b + 1) ∧
    (∀ g ∈ (chunkGroups chunks.length chunks (b + 1)).dropLast,
      g.length = b + 1) ∧
    batch_chunks [] (b + 1) = [] ∧
    batch_chunks ["a", "b", "c", "d", "e"] 2 =
      ["a\n\n--- SECTION ---\n\nb", "c\n\n--- SECTION ---\n\nd", "e"] := by
  refine ⟨rfl, chunkGroups_join b _ chunks (le_refl _),
    fun g hg => chunkGroups_bounded b _ chunks g hg,
    chunkGroups_dropLast_full b _ chunks (le_refl _), rfl, by decide⟩

/-- One quiz question as parsed from the LLM's JSON response
(quiz_generator.py prompt, lines 47-65; spec data model QuizQuestion). -/
structure Question where
  question : String
  options : List String
  answer : String
  difficulty : String
  explanation : String
deriving DecidableEq

/-- quiz_generator.py, `generate_quiz_from_batch` (lines 43-99).  The
Gemini call plus response cleaning plus `json.loads` is the oracle
`llm`: `none` models any exception (API failure or JSON parse failure),
in which case the `except` branch returns `[]`.  On success the parsed
questions are filtered by difficulty when `params['difficulty']` is
truthy and not "mixed", then truncated to `params['num_questions']` when
that is truthy (non-zero). -/
def generate_quiz_from_batch (llm : String → Option (List Question))
    (batch_text : String) (difficulty : String) (num_questions : Nat) :
    List Question :=
  match llm batch_text with
  | none => []
  | some qs =>
    let qs1 := if difficulty ≠ "" ∧ difficulty ≠ "mixed" then
      qs.filter (fun q => decide (q.difficulty = difficulty)) else qs
    if num_questions ≠ 0 then qs1.take num_questions else qs1

/-- The batch loop of quiz_generator.py `generate_quiz` (lines 129-141):
stop as soon as enough questions are accumulated, otherwise request
`min(remaining, 5)` questions from the next batch and continue.  The
second component collects the batch texts actually sent to the LLM, so
that skipped batches are observable in the model. -/
def quizLoop (llm : String → Option (List Question)) (difficulty : String)
    (needed : Nat) : List String → List Question →
    List Question × List String
  | [], acc => (acc, [])
  | b :: rest, acc =>
    if needed ≤ acc.length then (acc, [])
    else
      let qs := generate_quiz_from_batch llm b difficulty
        (min (needed - acc.length) 5)
      let r := quizLoop llm difficulty needed rest (acc ++ qs)
      (r.1, b :: r.2)

/-- quiz_generator.py, `generate_quiz` (lines 101-143): deduplicate the
chunks, batch them, run the batch loop, and return the first
`num_questions` accumulated questions. -/
def generate_quiz (llm : String → Option (List Question))
    (text_chunks : List String) (sim : Nat → Nat → ℚ)
    (num_questions : Nat) (difficulty : String)
    (similarity_threshold : ℚ) (batch_size : Nat) : List Question :=
  let unique := deduplicate_chunks text_chunks sim similarity_threshold
  let batches := batch_chunks unique batch_size
  (quizLoop llm difficulty num_questions batches []).1.take num_questions

/-- A key term of a notes section (notes_generator.py prompt). -/
structure KeyTerm where
  term : String
  definition : String
deriving DecidableEq

/-- A subsection of a notes section (notes_generator.py prompt). -/
structure SubsectionNote where
  subtitle : String
  points : List String
deriving DecidableEq

/-- One section of the structured notes (notes_generator.py prompt,
spec data model NotesDocument). -/
structure NoteSection where
  title : String
  content : String
  subsections : List SubsectionNote
  key_terms : List KeyTerm
  examples : List String
deriving DecidableEq

/-- The parsed `{"sections": [...]}` object of one notes batch. -/
structure NotesData where
  sections : List NoteSection
deriving DecidableEq

/-- The merged notes document `{"title": ..., "sections": [...]}`. -/
structure NotesDocument where
  title : String
  sections : List NoteSection
deriving DecidableEq

/-- notes_generator.py, `generate_notes_from_batch` (lines 54-126): the
Gemini call plus `clean_json_response` plus `json.loads` is the oracle
`llm`; on any exception (JSON parse error or API error) the except
branches return `{"sections": []}`. -/
def generate_notes_from_batch (llm : String → Option NotesData)
    (batch_text : String) : NotesData :=
  match llm batch_text with
  | none => ⟨[]⟩
  | some nd => nd

/-- notes_generator.py, `merge_notes` (lines 128-139): concatenate the
section lists of all batches under the synthetic title. -/
def merge_notes (all_notes_batches : List NotesData) : NotesDocument :=
  ⟨"Generated Notes", (all_notes_batches.map NotesData.sections).join⟩

/-- notes_generator.py, `generate_notes` (lines 180-232): deduplicate,
batch, generate notes for every batch, merge. -/
def generate_notes (llm : String → Option NotesData)
    (text_chunks : List String) (sim : Nat → Nat → ℚ)
    (similarity_threshold : ℚ) (batch_size : Nat) : NotesDocument :=
  let unique := deduplicate_chunks text_chunks sim similarity_threshold
  let batches := batch_chunks unique batch_size
  merge_notes (batches.map (generate_notes_from_batch llm))

/-- A fixed question fixture for exercising the quiz loop. -/
def mkQ (s : String) : Question :=
  ⟨s, ["A", "B", "C", "D"], "A", "easy", "because"⟩

/-- An LLM oracle that yields the same five questions for every batch:
two batches together would yield 10 raw questions. -/
def llmFive : String → Option (List Question) :=
  fun _ => some [mkQ "q1", mkQ "q2", mkQ "q3", mkQ "q4", mkQ "q5"]

/-- Claim C5: `generate_quiz` requests `min(remaining, 5)` questions per
batch, stops invoking the LLM once `num_questions` questions have been
accumulated (the batch-call trace of a loop entered with enough
questions is empty — skipped batches are never generated), and returns
at most `num_questions` questions; concretely, requesting 3 questions
from two batches that would together yield 10 raw questions returns
exactly the first 3 questions of the first batch, and only the first
batch is ever sent to the LLM. -/
theorem generate_quiz_spec (llm : String → Option (List Question))
    (chunks : List String) (sim : Nat → Nat → ℚ) (n : Nat) (d : String)
    (t : ℚ) (bs : Nat) (b : String) (rest : List String)
    (acc acc2 : List Question)
    (hfull : n ≤ acc.length) (hroom : acc2.length < n) :
    (generate_quiz llm chunks sim n d t bs).length ≤ n ∧
    quizLoop llm d n (b :: rest) acc = (acc, []) ∧
    quizLoop llm d n (b :: rest) acc2 =
      ((quizLoop llm d n rest
        (acc2 ++ generate_quiz_from_batch llm b d
          (min (n - acc2.length) 5))).1,
       b :: (quizLoop llm d n rest
        (acc2 ++ generate_quiz_from_batch llm b d
          (min (n - acc2.length) 5))).2) ∧
    generate_quiz llmFive ["c1", "c2"] (fun _ _ => 0) 3 "mixed" 1 1 =
      [mkQ "q1", mkQ "q2", mkQ "q3"] ∧
    (quizLoop llmFive "mixed" 3 (batch_chunks ["c1", "c2"] 1) []).2 =
      ["c1"] := by
  refine ⟨?_, ?_, ?_, by decide, by decide⟩
  · unfold generate_quiz
    exact List.length_take_le _ _
  · simp [quizLoop, hfull]
  · simp [quizLoop, Nat.not_le.mpr hroom]

/-- Witness for C5 at concrete inputs. -/
theorem generate_quiz_spec_witness :
    (generate_quiz llmFive ["c1"] (fun _ _ => 0) 2 "mixed" 1
      1).length ≤ 2 ∧
    quizLoop llmFive "mixed" 2 ("c9" :: []) [mkQ "a", mkQ "b"] =
      ([mkQ "a", mkQ "b"], []) ∧
    quizLoop llmFive "mixed" 2 ("c9" :: []) [] =
      ((quizLoop llmFive "mixed" 2 []
        ([] ++ generate_quiz_from_batch llmFive "c9" "mixed"
          (min (2 - ([] : List Question).length) 5))).1,
       "c9" :: (quizLoop llmFive "mixed" 2 []
        ([] ++ generate_quiz_from_batch llmFive "c9" "mixed"
          (min (2 - ([] : List Question).length) 5))).2) ∧
    generate_quiz llmFive ["c1", "c2"] (fun _ _ => 0) 3 "mixed" 1 1 =
      [mkQ "q1", mkQ "q2", mkQ "q3"] ∧
    (quizLoop llmFive "mixed" 3 (batch_chunks ["c1", "c2"] 1) []).2 =
      ["c1"] :=
  generate_quiz_spec llmFive ["c1"] (fun _ _ => 0) 2 "mixed" 1 1
    "c9" [] [mkQ "a", mkQ "b"] [] (by decide) (by decide)

/-- A quiz-LLM oracle that fails to parse exactly on the batch text
"bad" and yields one question otherwise. -/
def llmQuizBad : String → Option (List Question) :=
  fun s => if s = "bad" then none else some [mkQ "ok"]

/-- A notes-LLM oracle that fails to parse exactly on the batch text
"bad" and yields one section otherwise. -/
def llmNotesBad : String → Option NotesData :=
  fun s => if s = "bad" then none else
    some ⟨[⟨"T", "c", [], [], []⟩]⟩

/-- Claim C8: a parse failure for one batch (`llm` returns `none`)
records an empty result for that batch — the quiz generator contributes
`[]` and keeps looping over the remaining batches with its accumulator
unchanged, and the notes generator contributes `{"sections": []}` so the
merged notes equal exactly the contributions of the other batches. -/
theorem parse_failure_isolated (llm_q : String → Option (List Question))
    (llm_n : String → Option NotesData) (b bn d : String) (n : Nat)
    (rest : List String) (acc : List Question) (xs ys : List String)
    (hq : llm_q b = none) (hn : llm_n bn = none)
    (hroom : acc.length < n) :
    generate_quiz_from_batch llm_q b d (min (n - acc.length) 5) = [] ∧
    quizLoop llm_q d n (b :: rest) acc =
      ((quizLoop llm_q d n rest acc).1,
       b :: (quizLoop llm_q d n rest acc).2) ∧
    generate_notes_from_batch llm_n bn = ⟨[]⟩ ∧
    (merge_notes ((xs ++ bn :: ys).map
        (generate_notes_from_batch llm_n))).sections =
      (merge_notes (xs.map (generate_notes_from_batch llm_n))).sections ++
      (merge_notes (ys.map (generate_notes_from_batch llm_n))).sections := by
  refine ⟨?_, ?_, ?_, ?_⟩
  · simp [generate_quiz_from_batch, hq]
  · simp [quizLoop, Nat.not_le.mpr hroom, generate_quiz_from_batch, hq]
  · simp [generate_notes_from_batch, hn]
  · simp [merge_notes, generate_notes_from_batch, hn]

/-- Witness for C8 at concrete inputs. -/
theorem parse_failure_isolated_witness :
    generate_quiz_from_batch llmQuizBad "bad"
      "mixed" (min (3 - ([] : List Question).length) 5) = [] ∧
    quizLoop llmQuizBad "mixed" 3 ("bad" :: ["good"]) [] =
      ((quizLoop llmQuizBad "mixed" 3 ["good"] []).1,
       "bad" :: (quizLoop llmQuizBad "mixed" 3 ["good"] []).2) ∧
    generate_notes_from_batch llmNotesBad "bad" = ⟨[]⟩ ∧
    (merge_notes ((["x"] ++ "bad" :: ["y"]).map
        (generate_notes_from_batch llmNotesBad))).sections =
      (merge_notes (["x"].map
        (generate_notes_from_batch llmNotesBad))).sections ++
      (merge_notes (["y"].map
        (generate_notes_from_batch llmNotesBad))).sections :=
  parse_failure_isolated llmQuizBad llmNotesBad "bad" "bad" "mixed" 3
    ["good"] [] ["x"] ["y"] (by decide) (by decide) (by decide)

/-- The vector-store handle returned by `store_chroma_function`:
`existing` is the `Chroma(persist_directory=...)` handle loaded from the
pre-existing index directory, `fresh` the one created by
`Chroma.from_documents`. -/
inductive VSHandle where
  | existing
  | fresh
deriving DecidableEq

/-- Externally observable effects of `store_chroma_function`, in program
order: vector deletions for removed files, index cleanup, per-file text
extraction, chunk splitting, and embedding upserts. -/
inductive VSEffect where
  | deleteBySource (f : String)
  | collectionDeleteAll
  | removeIndexDir
  | removeStateFile
  | extractText (f : String)
  | splitChunks
  | addDocuments
  | createIndex
deriving DecidableEq

/-- `true` exactly on removed-file vector deletions, the only effect the
cache-hit path of `store_chroma_function` may perform. -/
def isDeleteBySource : VSEffect → Bool
  | .deleteBySource _ => true
  | _ => false

/-- The outcome of pdf_processor.py `store_chroma_function`: the
returned handle (`none` models the `return None` paths), the effect
trace, the ledger left on disk, and whether the state file and the
index directory still exist afterwards. -/
structure StoreResult where
  handle : Option VSHandle
  trace : List VSEffect
  ledger : List (String × ℚ)
  stateFileExists : Bool
  indexDirExists : Bool
deriving DecidableEq

/-- pdf_processor.py, `store_chroma_function` (lines 84-146).  `files`
is the glob listing of supported files (identical at both glob sites
because nothing inside the call mutates the data folder), `mtime` the
modification times, `ledger0` the persisted ledger, and
`indexDirExists` whether the vector-db directory exists when the
function runs (it always does after `create_user_directories`, but the
model keeps it a parameter).  Step by step: run `check_new_files`; load
the existing index if its directory exists; delete vectors of removed
files when an index is loaded; if no supported files remain, tear down
the index and the state file and return `None`; if there are no
new/updated files, return the loaded handle unchanged; otherwise
extract text from each new file, split into chunks and upsert (into the
loaded index, or a fresh one if none was loaded). -/
def store_chroma_function (files : List String) (mtime : String → ℚ)
    (ledger0 : List (String × ℚ)) (indexDirExists : Bool) : StoreResult :=
  let d := check_new_files files mtime ledger0
  let vsLoaded := indexDirExists
  let delTrace := if vsLoaded then
    (if d.removed_files = [] then [] else
      d.removed_files.map VSEffect.deleteBySource) else []
  if files = [] then
    { handle := none
      trace := delTrace ++
        (if vsLoaded then [VSEffect.collectionDeleteAll] else []) ++
        (if indexDirExists then [VSEffect.removeIndexDir] else []) ++
        [VSEffect.removeStateFile]
      ledger := []
      stateFileExists := false
      indexDirExists := false }
  else if d.new_files = [] then
    { handle := if vsLoaded then some VSHandle.existing else none
      trace := delTrace
      ledger := d.ledger
      stateFileExists := true
      indexDirExists := indexDirExists }
  else
    { handle := some (if vsLoaded then VSHandle.existing else
        VSHandle.fresh)
      trace := delTrace ++ d.new_files.map VSEffect.extractText ++
        [VSEffect.splitChunks] ++
        (if vsLoaded then [VSEffect.addDocuments] else
          [VSEffect.createIndex])
      ledger := d.ledger
      stateFileExists := true
      indexDirExists := true }

/-- Claim C6: when the ingestion diff reports no new or updated files
and supported files still exist in the user's document folder (with the
index directory present, so an index is loaded), `store_chroma_function`
returns the existing vector-index handle unchanged, and its effect trace
contains no text extraction, chunk splitting, embedding upsert, or
index creation — at most vector deletions for removed files. -/
theorem store_chroma_cache_hit (files : List String) (mtime : String → ℚ)
    (ledger0 : List (String × ℚ)) (hfiles : files ≠ [])
    (hnew : (check_new_files files mtime ledger0).new_files = []) :
    (store_chroma_function files mtime ledger0 true).handle =
      some VSHandle.existing ∧
    (store_chroma_function files mtime ledger0 true).trace.all
      isDeleteBySource = true := by
  simp only [store_chroma_function]
  rw [if_neg hfiles, if_pos hnew]
  refine ⟨rfl, ?_⟩
  by_cases hrem : (check_new_files files mtime ledger0).removed_files = []
  · simp [hrem]
  · simp [hrem, List.all_eq_true, isDeleteBySource]

/-- Witness for C6 at a concrete input: one unchanged file on disk, one
ledger entry for a removed file (whose vectors are deleted, which the
claim permits), no new files. -/
theorem store_chroma_cache_hit_witness :
    (store_chroma_function ["a.pdf"] (fun _ => 1)
      [("a.pdf", 1), ("gone.pdf", 1)] true).handle =
      some VSHandle.existing ∧
    (store_chroma_function ["a.pdf"] (fun _ => 1)
      [("a.pdf", 1), ("gone.pdf", 1)] true).trace.all
      isDeleteBySource = true :=
  store_chroma_cache_hit ["a.pdf"] (fun _ => 1)
    [("a.pdf", 1), ("gone.pdf", 1)] (by decide) (by decide)
